import Mathlib

/-!
Shallow embedding of the `lazyssh` TUI application (src/app.rs) and proofs
about its key-store scanning, selection handling, agent interaction and
key-creation logic.

External effects (directory listings, `ssh-keygen` / `ssh-add` process
invocations, the trash service) are modelled as explicit parameters: a
directory snapshot is a list of file names, a process invocation is a pair
of an exit-status boolean and its captured stdout/stderr, and the trash
service is a record of success flags.  Machine integers (`usize`) are
modelled as `Nat`; the one place where unsigned subtraction can underflow
uses a checked subtraction returning `Option Nat`, `none` standing for the
arithmetic-underflow panic of checked Rust arithmetic.
-/

namespace Lazyssh

/-- Rust `str::ends_with(".pub")`, written on the reversed character list so
that all later functions reduce by structural recursion. -/
def ends_with_pub (s : String) : Bool :=
  match s.data.reverse with
  | 'b' :: 'u' :: 'p' :: '.' :: _ => true
  | _ => false

/-- Helper for `trim_end_matches_pub`: repeatedly strips a leading
(reversed) ".pub" from a reversed character list, as Rust
`trim_end_matches(".pub")` strips every trailing repetition of the
pattern. -/
def trimPubRev : List Char → List Char
  | 'b' :: 'u' :: 'p' :: '.' :: rest => trimPubRev rest
  | l => l

/-- Rust `str::trim_end_matches(".pub")`. -/
def trim_end_matches_pub (s : String) : String :=
  String.mk (trimPubRev s.data.reverse).reverse

/-- Rust `str::contains(needle)`: substring containment. -/
def strContains (hay needle : String) : Bool :=
  (List.range (hay.data.length + 1)).any fun i => needle.data.isPrefixOf (hay.data.drop i)

/-- Helper for `rust_split_whitespace`, accumulating the current word in
reverse. -/
def splitWsAux : List Char → List Char → List String
  | [], cur => if cur.isEmpty then [] else [String.mk cur.reverse]
  | c :: rest, cur =>
      if c.isWhitespace then
        if cur.isEmpty then splitWsAux rest [] else String.mk cur.reverse :: splitWsAux rest []
      else splitWsAux rest (c :: cur)

/-- Rust `str::split_whitespace`: the maximal whitespace-free words of a
string, in order. -/
def rust_split_whitespace (s : String) : List String :=
  splitWsAux s.data []

/-- Helper for `firstSeg`: the characters before the first occurrence of
the separator " - ". -/
def firstSegAux : List Char → List Char
  | ' ' :: '-' :: ' ' :: _ => []
  | c :: rest => c :: firstSegAux rest
  | [] => []

/-- Rust `selected_file.split(" - ").next().unwrap()`: the prefix of the
string before the first " - " (the whole string when the separator is
absent). -/
def firstSeg (s : String) : String :=
  String.mk (firstSegAux s.data)

/-- Rust `str::trim`: strip leading and trailing whitespace. -/
def rustTrim (s : String) : String :=
  String.mk (((s.data.dropWhile Char.isWhitespace).reverse.dropWhile Char.isWhitespace).reverse)

/-- Checked `usize` subtraction: Rust `a - b` on unsigned integers panics
(under overflow checking) when `b > a`; `none` models that panic. -/
def usizeSub (a b : Nat) : Option Nat :=
  if b ≤ a then some (a - b) else none

/-- PathBuf `join` on an already-joined textual path. -/
def joinPath (dir file : String) : String :=
  dir ++ "/" ++ file

/-!  The key-store scan (`App::load_ssh_files`).  The directory snapshot is
the list of file names returned by `fs::read_dir`, in directory order.  The
two `HashSet`s are modelled as duplicate-free lists in insertion order
(set-level facts proved below do not depend on the iteration order). -/

/-- HashSet insertion on a duplicate-free list model. -/
def insertSet (x : String) (s : List String) : List String :=
  if x ∈ s then s else s ++ [x]

/-- Accumulator of the scanning loop in `App::load_ssh_files`. -/
structure ScanAcc where
  private_keys : List String
  public_keys : List String
  other_files : List String
deriving Repr, DecidableEq

/-- One iteration of the scanning loop: the branch structure mirrors the
Rust source, including the third branch pushing onto `other_files`, which
is unreachable because its guard is the negation of the second guard. -/
def scanStep (acc : ScanAcc) (file_name : String) : ScanAcc :=
  if ends_with_pub file_name then
    { acc with public_keys := insertSet (trim_end_matches_pub file_name) acc.public_keys }
  else if !(ends_with_pub file_name) then
    { acc with private_keys := insertSet file_name acc.private_keys }
  else
    { acc with other_files := acc.other_files ++ [file_name] }

/-- The scanning loop of `App::load_ssh_files` over a directory snapshot. -/
def scanAcc (files : List String) : ScanAcc :=
  files.foldl scanStep ⟨[], [], []⟩

/-- Base names in the intersection `private_keys ∩ public_keys`
(`private_keys.intersection(&public_keys)`): the paired group. -/
def pairedBases (files : List String) : List String :=
  (scanAcc files).private_keys.filter fun k => decide (k ∈ (scanAcc files).public_keys)

/-- Base names in `private_keys \ public_keys`
(`private_keys.difference(&public_keys)`): the private-only group. -/
def privateOnlyBases (files : List String) : List String :=
  (scanAcc files).private_keys.filter fun k => decide (k ∉ (scanAcc files).public_keys)

/-- Base names in `public_keys \ private_keys`
(`public_keys.difference(&private_keys)`): the public-only group. -/
def publicOnlyBases (files : List String) : List String :=
  (scanAcc files).public_keys.filter fun k => decide (k ∉ (scanAcc files).private_keys)

/-- Base names of the unrecognized group (`other_files`). -/
def otherBases (files : List String) : List String :=
  (scanAcc files).other_files

/-- `App::load_ssh_files` on an existing `.ssh` directory: paired entries
formatted "key - key.pub", then private-only names, then public-only names
with ".pub" restored, then the other files. -/
def load_ssh_files (files : List String) : List String :=
  ((pairedBases files).map fun k => k ++ " - " ++ k ++ ".pub")
    ++ privateOnlyBases files
    ++ ((publicOnlyBases files).map fun k => k ++ ".pub")
    ++ (scanAcc files).other_files

/-- `App::load_ssh_files` including the branch for a missing `.ssh`
directory (`none`). -/
def load_ssh_files_opt : Option (List String) → List String
  | none => ["No SSH files found"]
  | some files => load_ssh_files files

/-- The base name of a file name as the scan records it: a ".pub" file
contributes its name with the suffix stripped, every other file contributes
its full name. -/
def baseName (f : String) : String :=
  if ends_with_pub f then trim_end_matches_pub f else f

/-- A name of private style: it is one of the scanned file names and does
not carry the ".pub" suffix. -/
def isPrivateStyleName (files : List String) (k : String) : Prop :=
  k ∈ files ∧ ends_with_pub k = false

/-- A base of public style: some scanned file name carries the ".pub"
suffix and strips to it. -/
def isPublicStyleBase (files : List String) (k : String) : Prop :=
  ∃ f ∈ files, ends_with_pub f = true ∧ trim_end_matches_pub f = k

/-!  Application state.  The fields mirror `struct App`, restricted to the
data the claims are about; purely visual state (list widgets, popup
layouts) is omitted.  `ssh_files_sel` is `ListState::selected()` for the
file list, `create_form_sel` the same for the creation form. -/

/-- The state of `struct App` relevant to key management. -/
structure AppState where
  ssh_files : List String
  ssh_files_sel : Option Nat
  command_log : List String
  show_create_form : Bool
  show_confirm_delete : Bool
  key_name : String
  key_type : String
  key_bits : String
  passphrase : String
  re_passphrase : String
  comment : String
  selected_key_type_index : Nat
  selected_bits_index : Nat
  create_form_sel : Option Nat
deriving Repr, DecidableEq

/-- `FORM_FIELD_COUNT`. -/
def FORM_FIELD_COUNT : Nat := 6

/-- The `key_types` vector of `App::new`. -/
def key_types_list : List String := ["rsa", "dsa", "ecdsa", "ed25519"]

/-- The `bits_options` vector of `App::new`. -/
def bits_options_list : List String := ["1024", "2048", "4096"]

/-!  External world records: results of process invocations and of the
trash service, passed explicitly where the Rust code performs the
side-effecting call. -/

/-- Outcome of the external invocations made by the agent-related methods:
`ssh-keygen -lf` (fingerprint), `ssh-add -l` (listing, captured as exit
status plus `lines()` of its stdout) and `ssh-add <path>` (load). -/
structure AgentWorld where
  fpExitOk : Bool
  fpStdout : String
  listExitOk : Bool
  listLines : List String
  addExitOk : Bool
  addStderr : String
deriving Repr, DecidableEq

/-- Outcome of the three `trash::delete` calls attempted by
`App::confirm_delete_ssh_key`. -/
structure TrashWorld where
  privOk : Bool
  pubOk : Bool
  otherOk : Bool
deriving Repr, DecidableEq

/-- Outcome of the `ssh-keygen` generation invocation of
`App::create_ssh_key`, together with the clock reading and the directory
snapshot found by the rescan on success. -/
structure KeygenWorld where
  sshDir : String
  nowSecs : Nat
  genExitOk : Bool
  genStderr : String
  dirAfter : Option (List String)
deriving Repr, DecidableEq

/-- `App::get_fingerprint`: on a successful `ssh-keygen -lf` invocation,
the second whitespace-separated field of its stdout, with `""` as the
`unwrap_or` fallback; otherwise the error string. -/
def get_fingerprint (exitOk : Bool) (stdout : String) : Except String String :=
  if exitOk then
    Except.ok (((rust_split_whitespace stdout)[1]?).getD "")
  else
    Except.error "Failed to get SSH key fingerprint"

/-- `App::is_key_in_agent`: when `ssh-add -l` exits successfully, whether
any line of its output contains the fingerprint as a substring; `false`
when the listing invocation fails. -/
def is_key_in_agent (listExitOk : Bool) (listLines : List String) (fingerprint : String) : Bool :=
  if listExitOk then
    listLines.any fun line => strContains line fingerprint
  else
    false

/-- `App::check_ssh_agent_status`: the status string for the selected
file.  `pubExists` models `path.exists()` for the derived ".pub" path. -/
def check_ssh_agent_status (st : AppState) (pubExists : Bool) (w : AgentWorld) : String :=
  match st.ssh_files[st.ssh_files_sel.getD 0]? with
  | none => "No file selected"
  | some _ =>
    if pubExists then
      match get_fingerprint w.fpExitOk w.fpStdout with
      | Except.ok fingerprint =>
        if is_key_in_agent w.listExitOk w.listLines fingerprint then
          "SSH key is added to agent"
        else
          "SSH key is not added to agent"
      | Except.error err => err
    else
      "It\x27s not a ssh key"

/-- `App::add_ssh_key_to_agent`.  The returned boolean records whether the
`ssh-add <path>` load invocation was executed. -/
def add_ssh_key_to_agent (st : AppState) (sshDir : String) (w : AgentWorld) :
    AppState × Bool :=
  match st.ssh_files[st.ssh_files_sel.getD 0]? with
  | none => (st, false)
  | some selected_file =>
    if !(strContains selected_file " - ") then
      ({ st with command_log := st.command_log ++
          ["Cannot add: " ++ selected_file ++ " is not a private key file of an SSH pair"] },
        false)
    else
      let path := joinPath sshDir (firstSeg selected_file)
      match get_fingerprint w.fpExitOk w.fpStdout with
      | Except.error err =>
        ({ st with command_log := st.command_log ++ [err] }, false)
      | Except.ok fingerprint =>
        if is_key_in_agent w.listExitOk w.listLines fingerprint then
          ({ st with command_log := st.command_log ++
              ["ssh-add " ++ path ++ " -> SSH key is already added to agent"] },
            false)
        else
          if w.addExitOk then
            ({ st with command_log := st.command_log ++
                ["ssh-add " ++ path ++ " -> SSH key added to agent"] },
              true)
          else
            ({ st with command_log := st.command_log ++
                ["ssh-add " ++ path ++ " -> Failed to add SSH key to agent: " ++ w.addStderr] },
              true)

/-- `App::confirm_delete_ssh_key`.  The public-key path is the private-key
path with ".pub" appended (PathBuf join with an absolute path replaces the
base). -/
def confirm_delete_ssh_key (st : AppState) (sshDir : String) (w : TrashWorld) : AppState :=
  match st.ssh_files[st.ssh_files_sel.getD 0]? with
  | none => st
  | some selected_file =>
    let private_key_path := joinPath sshDir (firstSeg selected_file)
    if w.privOk || w.pubOk then
      { st with
          command_log := st.command_log ++
            ["Move to trash: " ++ private_key_path ++ " -> SSH key moved to trash"],
          ssh_files := st.ssh_files.eraseIdx (st.ssh_files_sel.getD 0),
          ssh_files_sel := some ((st.ssh_files_sel.getD 0) - 1) }
    else
      let other_file_path := joinPath sshDir selected_file
      if w.otherOk then
        { st with
            command_log := st.command_log ++
              ["Move to trash: " ++ other_file_path ++ " -> SSH key moved to trash"],
            ssh_files := st.ssh_files.eraseIdx (st.ssh_files_sel.getD 0),
            ssh_files_sel := some ((st.ssh_files_sel.getD 0) - 1) }
      else
        st

/-- `App::select_next_ssh_file` on the file list and current selection.
The Rust body computes `self.ssh_files.len() - 1` in `usize`; on an empty
list this subtraction underflows, so the result is an `Option` whose
`none` is the ensuing panic of checked arithmetic. -/
def select_next_ssh_file (files : List String) (sel : Option Nat) : Option (Option Nat) :=
  match sel with
  | some i =>
    match usizeSub files.length 1 with
    | none => none
    | some lastIdx => some (some (if i ≥ lastIdx then i else i + 1))
  | none => some (some 0)

/-- `App::select_previous_ssh_file`. -/
def select_previous_ssh_file (sel : Option Nat) : Option Nat :=
  match sel with
  | some i => some (if i = 0 then 0 else i - 1)
  | none => some 0

/-!  The creation form (`App::handle_create_form_key_event` and helpers). -/

/-- Crossterm key codes handled by the creation form. -/
inductive KeyCode where
  | enter
  | esc
  | tab
  | backTab
  | char (c : Char)
  | backspace
  | delete
  | up
  | down
  | other
deriving Repr, DecidableEq

/-- `App::select_next_form_field`. -/
def select_next_form_field (st : AppState) : AppState :=
  { st with create_form_sel := some ((st.create_form_sel.getD 0 + 1) % FORM_FIELD_COUNT) }

/-- `App::select_previous_form_field`. -/
def select_previous_form_field (st : AppState) : AppState :=
  let prev_index :=
    if st.create_form_sel.getD 0 = 0 then FORM_FIELD_COUNT - 1
    else st.create_form_sel.getD 0 - 1
  { st with create_form_sel := some prev_index }

/-- `App::handle_char_input`. -/
def handle_char_input (st : AppState) (c : Char) : AppState :=
  match st.create_form_sel with
  | some 0 => { st with key_name := st.key_name.push c }
  | some 3 => { st with passphrase := st.passphrase.push c }
  | some 4 => { st with re_passphrase := st.re_passphrase.push c }
  | some 5 => { st with comment := st.comment.push c }
  | _ => st

/-- `App::handle_backspace` (Rust `String::pop`). -/
def handle_backspace (st : AppState) : AppState :=
  match st.create_form_sel with
  | some 0 => { st with key_name := String.mk st.key_name.data.dropLast }
  | some 3 => { st with passphrase := String.mk st.passphrase.data.dropLast }
  | some 4 => { st with re_passphrase := String.mk st.re_passphrase.data.dropLast }
  | some 5 => { st with comment := String.mk st.comment.data.dropLast }
  | _ => st

/-- `App::handle_delete` (clears the focused field). -/
def handle_delete_key (st : AppState) : AppState :=
  match st.create_form_sel with
  | some 0 => { st with key_name := "" }
  | some 3 => { st with passphrase := "" }
  | some 4 => { st with re_passphrase := "" }
  | some 5 => { st with comment := "" }
  | _ => st

/-- `App::handle_up_key`. -/
def handle_up_key (st : AppState) : AppState :=
  match st.create_form_sel with
  | some 1 =>
    { st with selected_key_type_index :=
        if st.selected_key_type_index = 0 then key_types_list.length - 1
        else st.selected_key_type_index - 1 }
  | some 2 =>
    { st with selected_bits_index :=
        if st.selected_bits_index = 0 then bits_options_list.length - 1
        else st.selected_bits_index - 1 }
  | _ => st

/-- `App::handle_down_key`. -/
def handle_down_key (st : AppState) : AppState :=
  match st.create_form_sel with
  | some 1 =>
    { st with selected_key_type_index :=
        if st.selected_key_type_index = key_types_list.length - 1 then 0
        else st.selected_key_type_index + 1 }
  | some 2 =>
    { st with selected_bits_index :=
        if st.selected_bits_index = bits_options_list.length - 1 then 0
        else st.selected_bits_index + 1 }
  | _ => st

/-- `App::toggle_create_ssh_key`. -/
def toggle_create_ssh_key (st : AppState) : AppState :=
  let st1 := { st with show_create_form := !st.show_create_form }
  if st1.show_create_form then { st1 with create_form_sel := some 0 } else st1

/-- `App::clear_input_fields`. -/
def clear_input_fields (st : AppState) : AppState :=
  { st with
      key_name := ""
      key_type := ""
      key_bits := ""
      passphrase := ""
      re_passphrase := ""
      comment := "" }

/-- `App::create_ssh_key`.  The returned boolean records that the
`ssh-keygen` generation invocation was executed (it always is when this
method runs).  The invocation log line is pushed before the exit status is
inspected, with the passphrase replaced by an asterisk mask of its
length. -/
def create_ssh_key (st : AppState) (w : KeygenWorld) : AppState × Bool :=
  let key_type := key_types_list.getD st.selected_key_type_index ""
  let key_bits := bits_options_list.getD st.selected_bits_index ""
  let current_time := Nat.repr w.nowSecs
  let key_name_with_fallback :=
    if (rustTrim st.key_name).data.isEmpty then
      "id_" ++ key_type ++ "_" ++ current_time
    else
      rustTrim st.key_name
  let key_path_str := joinPath w.sshDir key_name_with_fallback
  let masked_passphrase := String.mk (List.replicate st.passphrase.data.length '*')
  let invocation :=
    "ssh-keygen -t " ++ key_type ++ " -b " ++ key_bits ++ " -f " ++ key_path_str
      ++ " -N " ++ masked_passphrase ++ " -C " ++ st.comment
  let st1 := { st with command_log := st.command_log ++ [invocation] }
  if w.genExitOk then
    ({ clear_input_fields st1 with
        ssh_files := load_ssh_files_opt w.dirAfter,
        ssh_files_sel := some 0,
        show_create_form := false,
        command_log := st1.command_log ++ ["SSH key created: " ++ key_path_str] },
      true)
  else
    ({ st1 with command_log :=
        st1.command_log ++ ["Failed to create SSH key: " ++ w.genStderr] },
      true)

/-- `App::handle_create_form_key_event`.  The returned boolean records
whether the key-generation service was invoked. -/
def handle_create_form_key_event (st : AppState) (key : KeyCode) (w : KeygenWorld) :
    AppState × Bool :=
  match key with
  | KeyCode.enter =>
    if st.passphrase = st.re_passphrase then
      create_ssh_key st w
    else
      ({ st with command_log := st.command_log ++ ["Passphrases do not match"] }, false)
  | KeyCode.esc => (toggle_create_ssh_key st, false)
  | KeyCode.tab => (select_next_form_field st, false)
  | KeyCode.backTab => (select_previous_form_field st, false)
  | KeyCode.char c => (handle_char_input st c, false)
  | KeyCode.backspace => (handle_backspace st, false)
  | KeyCode.delete => (handle_delete_key st, false)
  | KeyCode.up => (handle_up_key st, false)
  | KeyCode.down => (handle_down_key st, false)
  | KeyCode.other => (st, false)

/-!  Concrete states and worlds used to instantiate the theorems. -/

/-- A concrete application state: a three-entry inventory with the second
entry selected, every popup closed and the creation form blank. -/
def stABC : AppState :=
  { ssh_files := ["a", "b", "c"]
    ssh_files_sel := some 1
    command_log := []
    show_create_form := false
    show_confirm_delete := false
    key_name := ""
    key_type := ""
    key_bits := ""
    passphrase := ""
    re_passphrase := ""
    comment := ""
    selected_key_type_index := 0
    selected_bits_index := 1
    create_form_sel := some 0 }

/-- A concrete application state whose inventory holds a single paired
entry, selected. -/
def pairState : AppState :=
  { stABC with
      ssh_files := ["id_rsa - id_rsa.pub"]
      ssh_files_sel := some 0 }

/-- An agent world in which the fingerprint query succeeds and the agent
listing succeeds but is empty: the key is not loaded. -/
def agentWorldNotLoaded : AgentWorld :=
  { fpExitOk := true
    fpStdout := "3072 SHA256:abcdef user (RSA)"
    listExitOk := true
    listLines := []
    addExitOk := true
    addStderr := "" }

/-- The same agent world after a successful load: the listing now shows
the fingerprint line. -/
def agentWorldLoaded : AgentWorld :=
  { agentWorldNotLoaded with listLines := ["3072 SHA256:abcdef user (RSA)"] }

/-- A concrete creation-form state whose passphrase is the single
character that the masking also produces. -/
def starFormState : AppState :=
  { stABC with
      show_create_form := true
      key_name := "mykey"
      passphrase := "*"
      re_passphrase := "*"
      comment := "c" }

/-- A concrete creation-form state whose passphrases disagree. -/
def mismatchFormState : AppState :=
  { stABC with
      show_create_form := true
      key_name := "mykey"
      passphrase := "a"
      re_passphrase := "b" }

/-- A concrete keygen world: the generation succeeds and the rescan sees
the new pair. -/
def keygenWorldOk : KeygenWorld :=
  { sshDir := "/home/user/.ssh"
    nowSecs := 0
    genExitOk := true
    genStderr := ""
    dirAfter := some ["mykey", "mykey.pub"] }

/-!  Lemmas about the scanning loop. -/

theorem mem_insertSet (x y : String) (s : List String) :
    y ∈ insertSet x s ↔ y = x ∨ y ∈ s := by
  unfold insertSet
  split
  · constructor
    · exact fun h2 => Or.inr h2
    · rintro (rfl | h2)
      · assumption
      · assumption
  · simp [List.mem_append, or_comm]

theorem foldl_scan_other (files : List String) :
    ∀ acc : ScanAcc, (files.foldl scanStep acc).other_files = acc.other_files := by
  induction files with
  | nil => intro acc; rfl
  | cons f fs ih =>
    intro acc
    rw [List.foldl_cons, ih]
    by_cases hb : ends_with_pub f = true <;> simp [scanStep, hb]

theorem scanStep_private_keys (acc : ScanAcc) (f : String) :
    (scanStep acc f).private_keys =
      if ends_with_pub f = true then acc.private_keys
      else insertSet f acc.private_keys := by
  by_cases hb : ends_with_pub f = true <;> simp [scanStep, hb]

theorem scanStep_public_keys (acc : ScanAcc) (f : String) :
    (scanStep acc f).public_keys =
      if ends_with_pub f = true then
        insertSet (trim_end_matches_pub f) acc.public_keys
      else acc.public_keys := by
  by_cases hb : ends_with_pub f = true <;> simp [scanStep, hb]

theorem foldl_scan_private (files : List String) :
    ∀ (acc : ScanAcc) (b : String),
      b ∈ (files.foldl scanStep acc).private_keys ↔
        b ∈ acc.private_keys ∨ ∃ f ∈ files, ends_with_pub f = false ∧ f = b := by
  induction files with
  | nil => intro acc b; simp
  | cons f fs ih =>
    intro acc b
    rw [List.foldl_cons, ih, scanStep_private_keys]
    by_cases hb : ends_with_pub f = true
    · rw [if_pos hb]
      constructor
      · rintro (hmem | ⟨g, hg, hP⟩)
        · exact Or.inl hmem
        · exact Or.inr ⟨g, List.mem_cons_of_mem f hg, hP⟩
      · rintro (hmem | ⟨g, hg, hP⟩)
        · exact Or.inl hmem
        · rcases List.mem_cons.mp hg with rfl | hg2
          · exact absurd hP.1 (by simp [hb])
          · exact Or.inr ⟨g, hg2, hP⟩
    · rw [if_neg hb, mem_insertSet]
      have hb2 : ends_with_pub f = false := by simpa using hb
      constructor
      · rintro ((rfl | hmem) | ⟨g, hg, hP⟩)
        · exact Or.inr ⟨b, List.mem_cons_self b fs, hb2, rfl⟩
        · exact Or.inl hmem
        · exact Or.inr ⟨g, List.mem_cons_of_mem _ hg, hP⟩
      · rintro (hmem | ⟨g, hg, hP⟩)
        · exact Or.inl (Or.inr hmem)
        · rcases List.mem_cons.mp hg with rfl | hg2
          · exact Or.inl (Or.inl hP.2.symm)
          · exact Or.inr ⟨g, hg2, hP⟩

theorem foldl_scan_public (files : List String) :
    ∀ (acc : ScanAcc) (b : String),
      b ∈ (files.foldl scanStep acc).public_keys ↔
        b ∈ acc.public_keys ∨
          ∃ f ∈ files, ends_with_pub f = true ∧ trim_end_matches_pub f = b := by
  induction files with
  | nil => intro acc b; simp
  | cons f fs ih =>
    intro acc b
    rw [List.foldl_cons, ih, scanStep_public_keys]
    by_cases hb : ends_with_pub f = true
    · rw [if_pos hb, mem_insertSet]
      constructor
      · rintro ((rfl | hmem) | ⟨g, hg, hP⟩)
        · exact Or.inr ⟨f, List.mem_cons_self f fs, hb, rfl⟩
        · exact Or.inl hmem
        · exact Or.inr ⟨g, List.mem_cons_of_mem _ hg, hP⟩
      · rintro (hmem | ⟨g, hg, hP⟩)
        · exact Or.inl (Or.inr hmem)
        · rcases List.mem_cons.mp hg with rfl | hg2
          · exact Or.inl (Or.inl hP.2.symm)
          · exact Or.inr ⟨g, hg2, hP⟩
    · rw [if_neg hb]
      constructor
      · rintro (hmem | ⟨g, hg, hP⟩)
        · exact Or.inl hmem
        · exact Or.inr ⟨g, List.mem_cons_of_mem f hg, hP⟩
      · rintro (hmem | ⟨g, hg, hP⟩)
        · exact Or.inl hmem
        · rcases List.mem_cons.mp hg with rfl | hg2
          · exact absurd hP.1 hb
          · exact Or.inr ⟨g, hg2, hP⟩

theorem other_files_scanAcc (files : List String) : (scanAcc files).other_files = [] :=
  foldl_scan_other files ⟨[], [], []⟩

theorem mem_private_keys (files : List String) (b : String) :
    b ∈ (scanAcc files).private_keys ↔
      ∃ f ∈ files, ends_with_pub f = false ∧ f = b := by
  rw [scanAcc, foldl_scan_private]
  simp

theorem mem_public_keys (files : List String) (b : String) :
    b ∈ (scanAcc files).public_keys ↔
      ∃ f ∈ files, ends_with_pub f = true ∧ trim_end_matches_pub f = b := by
  rw [scanAcc, foldl_scan_public]
  simp

theorem mem_private_keys_iff_style (files : List String) (b : String) :
    b ∈ (scanAcc files).private_keys ↔ isPrivateStyleName files b := by
  rw [mem_private_keys]
  unfold isPrivateStyleName
  constructor
  · rintro ⟨f, hf, hpub, rfl⟩
    exact ⟨hf, hpub⟩
  · rintro ⟨hf, hpub⟩
    exact ⟨b, hf, hpub, rfl⟩

theorem mem_public_keys_iff_style (files : List String) (b : String) :
    b ∈ (scanAcc files).public_keys ↔ isPublicStyleBase files b :=
  mem_public_keys files b

theorem mem_pairedBases (files : List String) (b : String) :
    b ∈ pairedBases files ↔
      b ∈ (scanAcc files).private_keys ∧ b ∈ (scanAcc files).public_keys := by
  simp [pairedBases, List.mem_filter]

theorem mem_privateOnlyBases (files : List String) (b : String) :
    b ∈ privateOnlyBases files ↔
      b ∈ (scanAcc files).private_keys ∧ b ∉ (scanAcc files).public_keys := by
  simp [privateOnlyBases, List.mem_filter]

theorem mem_publicOnlyBases (files : List String) (b : String) :
    b ∈ publicOnlyBases files ↔
      b ∈ (scanAcc files).public_keys ∧ b ∉ (scanAcc files).private_keys := by
  simp [publicOnlyBases, List.mem_filter]

theorem not_mem_otherBases (files : List String) (b : String) :
    b ∈ otherBases files ↔ False := by
  simp [otherBases, other_files_scanAcc]

theorem mentions_base_iff (files : List String) (b : String) :
    (∃ f ∈ files, baseName f = b) ↔
      b ∈ (scanAcc files).private_keys ∨ b ∈ (scanAcc files).public_keys := by
  rw [mem_private_keys, mem_public_keys]
  constructor
  · rintro ⟨f, hf, hb⟩
    by_cases hpub : ends_with_pub f = true
    · right
      refine ⟨f, hf, hpub, ?_⟩
      simpa [baseName, hpub] using hb
    · left
      refine ⟨f, hf, by simpa using hpub, ?_⟩
      simpa [baseName, hpub] using hb
  · rintro (⟨f, hf, hpub, rfl⟩ | ⟨f, hf, hpub, rfl⟩)
    · exact ⟨f, hf, by simp [baseName, hpub]⟩
    · exact ⟨f, hf, by simp [baseName, hpub]⟩

/-- Claim C1: for every directory snapshot the scan assigns each file
name's base name to exactly one of the four groups paired, private-only,
public-only and other; the union of the groups equals the set of base
names of the snapshot and no base name lies in two groups. -/
theorem scan_partitions_base_names (files : List String) (b : String) :
    ((∃ f ∈ files, baseName f = b) ↔
        (b ∈ pairedBases files ∨ b ∈ privateOnlyBases files ∨
          b ∈ publicOnlyBases files ∨ b ∈ otherBases files))
  ∧ ¬(b ∈ pairedBases files ∧ b ∈ privateOnlyBases files)
  ∧ ¬(b ∈ pairedBases files ∧ b ∈ publicOnlyBases files)
  ∧ ¬(b ∈ pairedBases files ∧ b ∈ otherBases files)
  ∧ ¬(b ∈ privateOnlyBases files ∧ b ∈ publicOnlyBases files)
  ∧ ¬(b ∈ privateOnlyBases files ∧ b ∈ otherBases files)
  ∧ ¬(b ∈ publicOnlyBases files ∧ b ∈ otherBases files) := by
  have h1 := mem_pairedBases files b
  have h2 := mem_privateOnlyBases files b
  have h3 := mem_publicOnlyBases files b
  have h4 := not_mem_otherBases files b
  have h5 := mentions_base_iff files b
  refine ⟨?_, ?_, ?_, ?_, ?_, ?_, ?_⟩
  · rw [h5, h1, h2, h3, h4]
    tauto
  · rw [h1, h2]
    tauto
  · rw [h1, h3]
    tauto
  · rw [h1, h4]
    tauto
  · rw [h2, h3]
    tauto
  · rw [h2, h4]
    tauto
  · rw [h3, h4]
    tauto

/-- Claim C6: the inventory produced by a scan lists all paired entries
first, then all private-only entries, then all public-only entries, then
all unrecognized files, with each group characterised by the naming
convention of the snapshot (no order inside a group is asserted). -/
theorem inventory_lists_groups_in_order (files : List String) :
    (load_ssh_files files
      = ((pairedBases files).map fun k => k ++ " - " ++ k ++ ".pub")
          ++ privateOnlyBases files
          ++ ((publicOnlyBases files).map fun k => k ++ ".pub")
          ++ otherBases files)
  ∧ (∀ k ∈ pairedBases files, isPrivateStyleName files k ∧ isPublicStyleBase files k)
  ∧ (∀ k ∈ privateOnlyBases files, isPrivateStyleName files k ∧ ¬ isPublicStyleBase files k)
  ∧ (∀ k ∈ publicOnlyBases files, isPublicStyleBase files k ∧ ¬ isPrivateStyleName files k)
  ∧ otherBases files = [] := by
  refine ⟨rfl, ?_, ?_, ?_, other_files_scanAcc files⟩
  · intro k hk
    rw [mem_pairedBases] at hk
    exact ⟨(mem_private_keys_iff_style files k).mp hk.1,
      (mem_public_keys_iff_style files k).mp hk.2⟩
  · intro k hk
    rw [mem_privateOnlyBases] at hk
    exact ⟨(mem_private_keys_iff_style files k).mp hk.1,
      fun hc => hk.2 ((mem_public_keys_iff_style files k).mpr hc)⟩
  · intro k hk
    rw [mem_publicOnlyBases] at hk
    exact ⟨(mem_public_keys_iff_style files k).mp hk.1,
      fun hc => hk.2 ((mem_private_keys_iff_style files k).mpr hc)⟩

/-- Claim C5 (evaluation at the failing input): scanning a directory that
contains exactly id_rsa, id_rsa.pub and known_hosts yields the two
expected display entries, but known_hosts is classified in the
private-only group, and the other/unrecognized group is empty — the
branch of the scanning loop that fills `other_files` is unreachable
because its guard is the negation of the preceding guard. -/
theorem scan_puts_known_hosts_in_private_group :
    load_ssh_files ["id_rsa", "id_rsa.pub", "known_hosts"]
        = ["id_rsa - id_rsa.pub", "known_hosts"]
  ∧ "known_hosts" ∈ privateOnlyBases ["id_rsa", "id_rsa.pub", "known_hosts"]
  ∧ otherBases ["id_rsa", "id_rsa.pub", "known_hosts"] = [] := by
  refine ⟨?_, ?_, ?_⟩ <;> decide

/-- Claim C2 (amended): after a confirmed deletion of the entry at index
`i`, the inventory loses that entry and the selection becomes
`max(0, i-1)` — uniformly, also when the deleted entry was not the last
one. -/
theorem delete_moves_selection_to_predecessor (st : AppState) (sshDir : String)
    (w : TrashWorld) (f : String)
    (hget : st.ssh_files[st.ssh_files_sel.getD 0]? = some f)
    (hdel : (w.privOk || w.pubOk || w.otherOk) = true) :
    (confirm_delete_ssh_key st sshDir w).ssh_files
        = st.ssh_files.eraseIdx (st.ssh_files_sel.getD 0)
  ∧ (confirm_delete_ssh_key st sshDir w).ssh_files_sel
        = some (st.ssh_files_sel.getD 0 - 1) := by
  cases hpriv : w.privOk <;> cases hpub : w.pubOk <;> cases hother : w.otherOk <;>
    simp_all [confirm_delete_ssh_key, hget]

theorem delete_moves_selection_to_predecessor_w :
    (confirm_delete_ssh_key stABC "/home/user/.ssh" ⟨true, true, true⟩).ssh_files
        = stABC.ssh_files.eraseIdx (stABC.ssh_files_sel.getD 0)
  ∧ (confirm_delete_ssh_key stABC "/home/user/.ssh" ⟨true, true, true⟩).ssh_files_sel
        = some (stABC.ssh_files_sel.getD 0 - 1) :=
  delete_moves_selection_to_predecessor stABC "/home/user/.ssh" ⟨true, true, true⟩ "b"
    (by decide) (by decide)

/-- Claim C2 counterexample: deleting index 1 of a three-entry inventory —
not the last element, so by the claim the selection should stay at
index 1 — actually moves the selection to index 0. -/
theorem delete_selection_claim_counterexample :
    stABC.ssh_files.length = 3
  ∧ stABC.ssh_files_sel = some 1
  ∧ (confirm_delete_ssh_key stABC "/home/user/.ssh" ⟨true, true, true⟩).ssh_files_sel = some 0
  ∧ ¬((confirm_delete_ssh_key stABC "/home/user/.ssh" ⟨true, true, true⟩).ssh_files_sel
        = some 1) := by
  refine ⟨by decide, by decide, by decide, by decide⟩

/-- Claim C10: advancing the selection is total exactly on non-empty
inventories: on any non-empty inventory it yields a selection, while on
the empty inventory with a selection index set — the state reached by a
confirmed deletion of the last remaining entry — it evaluates
`ssh_files.len() - 1` on an unsigned zero and underflows (panic) instead
of leaving the selection unchanged. -/
theorem select_next_underflows_on_empty :
    (∀ (files : List String) (sel : Option Nat),
        files ≠ [] → (select_next_ssh_file files sel).isSome = true)
  ∧ (∀ i : Nat, select_next_ssh_file [] (some i) = none)
  ∧ (confirm_delete_ssh_key pairState "/home/user/.ssh" ⟨true, true, true⟩).ssh_files = []
  ∧ (confirm_delete_ssh_key pairState "/home/user/.ssh" ⟨true, true, true⟩).ssh_files_sel
        = some 0 := by
  refine ⟨?_, ?_, by decide, by decide⟩
  · intro files sel hne
    cases sel with
    | none => rfl
    | some i =>
      have hlen : 1 ≤ files.length := by
        cases files with
        | nil => exact absurd rfl hne
        | cons a l => simp
      simp [select_next_ssh_file, usizeSub, hlen]
  · intro i
    rfl

theorem select_next_underflows_on_empty_w :
    (select_next_ssh_file ["id_rsa"] (some 0)).isSome = true :=
  select_next_underflows_on_empty.1 ["id_rsa"] (some 0) (by decide)

/-- Claim C3: calling add-to-agent twice on the same selected pair that is
initially not loaded — with the agent reporting the fingerprint as loaded
after the first call — executes the load invocation exactly once: the
first call invokes it, the second invokes nothing and appends the
"already added" log line. -/
theorem add_to_agent_idempotent (st : AppState) (sshDir f fp : String)
    (w1 w2 : AgentWorld)
    (hget : st.ssh_files[st.ssh_files_sel.getD 0]? = some f)
    (hpair : strContains f " - " = true)
    (hfp1 : get_fingerprint w1.fpExitOk w1.fpStdout = Except.ok fp)
    (hfp2 : get_fingerprint w2.fpExitOk w2.fpStdout = Except.ok fp)
    (hnot : is_key_in_agent w1.listExitOk w1.listLines fp = false)
    (hyes : is_key_in_agent w2.listExitOk w2.listLines fp = true) :
    (add_ssh_key_to_agent st sshDir w1).2 = true
  ∧ (add_ssh_key_to_agent (add_ssh_key_to_agent st sshDir w1).1 sshDir w2).2 = false
  ∧ (add_ssh_key_to_agent (add_ssh_key_to_agent st sshDir w1).1 sshDir w2).1.command_log
      = (add_ssh_key_to_agent st sshDir w1).1.command_log
        ++ ["ssh-add " ++ joinPath sshDir (firstSeg f)
              ++ " -> SSH key is already added to agent"] := by
  cases haddOk : w1.addExitOk <;>
    simp [add_ssh_key_to_agent, hget, hpair, hfp1, hfp2, hnot, hyes, haddOk]

theorem add_to_agent_idempotent_w :
    (add_ssh_key_to_agent pairState "/home/user/.ssh" agentWorldNotLoaded).2 = true
  ∧ (add_ssh_key_to_agent
        (add_ssh_key_to_agent pairState "/home/user/.ssh" agentWorldNotLoaded).1
        "/home/user/.ssh" agentWorldLoaded).2 = false
  ∧ (add_ssh_key_to_agent
        (add_ssh_key_to_agent pairState "/home/user/.ssh" agentWorldNotLoaded).1
        "/home/user/.ssh" agentWorldLoaded).1.command_log
      = (add_ssh_key_to_agent pairState "/home/user/.ssh" agentWorldNotLoaded).1.command_log
        ++ ["ssh-add " ++ joinPath "/home/user/.ssh" (firstSeg "id_rsa - id_rsa.pub")
              ++ " -> SSH key is already added to agent"] :=
  add_to_agent_idempotent pairState "/home/user/.ssh" "id_rsa - id_rsa.pub" "SHA256:abcdef"
    agentWorldNotLoaded agentWorldLoaded (by rfl) (by decide) (by rfl) (by rfl)
    (by decide) (by decide)

/-- Claim C4: whenever the passphrase differs from its confirmation, no
key event of the creation form invokes the key-generation service, and
the Enter key appends the mismatch log line instead. -/
theorem mismatch_blocks_keygen (st : AppState) (key : KeyCode) (w : KeygenWorld)
    (hne : st.passphrase ≠ st.re_passphrase) :
    (handle_create_form_key_event st key w).2 = false
  ∧ (handle_create_form_key_event st KeyCode.enter w).1.command_log
      = st.command_log ++ ["Passphrases do not match"] := by
  constructor
  · cases key <;> simp [handle_create_form_key_event, hne]
  · simp [handle_create_form_key_event, hne]

theorem mismatch_blocks_keygen_w :
    (handle_create_form_key_event mismatchFormState KeyCode.enter keygenWorldOk).2 = false
  ∧ (handle_create_form_key_event mismatchFormState KeyCode.enter keygenWorldOk).1.command_log
      = mismatchFormState.command_log ++ ["Passphrases do not match"] :=
  mismatch_blocks_keygen mismatchFormState KeyCode.enter keygenWorldOk (by decide)

/-- Claim C7 (amended): the command log produced by a key-creation attempt
depends on the passphrase only through its length — the invocation line
carries an asterisk mask of the passphrase's length — so two create
requests differing only in the contents of their equal-length passphrases
append identical log lines. -/
theorem create_log_passphrase_noninterference (st : AppState) (w : KeygenWorld)
    (p : String) (hlen : p.data.length = st.passphrase.data.length) :
    (create_ssh_key { st with passphrase := p } w).1.command_log
      = (create_ssh_key st w).1.command_log := by
  cases hgen : w.genExitOk <;>
    simp [create_ssh_key, clear_input_fields, hgen, hlen]

theorem create_log_passphrase_noninterference_w :
    (create_ssh_key { starFormState with passphrase := "a" } keygenWorldOk).1.command_log
      = (create_ssh_key starFormState keygenWorldOk).1.command_log :=
  create_log_passphrase_noninterference starFormState keygenWorldOk "a" (by decide)

/-- Claim C7 counterexample: with the one-character passphrase "*" the
raw passphrase string does occur in the command log after a create (the
mask of a one-asterisk passphrase is that passphrase itself), so "the raw
passphrase string never appears in the command log" fails as stated. -/
theorem create_log_contains_raw_star_passphrase :
    starFormState.passphrase = "*"
  ∧ ((create_ssh_key starFormState keygenWorldOk).1.command_log.any
        fun line => strContains line starFormState.passphrase) = true := by
  refine ⟨rfl, by decide⟩

theorem nil_isPrefixOf_char (l : List Char) : List.isPrefixOf [] l = true := by
  cases l <;> rfl

theorem strContains_empty_needle (l : String) : strContains l "" = true := by
  unfold strContains
  rw [List.any_eq_true]
  refine ⟨0, by simp, ?_⟩
  have hd : ("" : String).data = [] := rfl
  rw [hd]
  exact nil_isPrefixOf_char (l.data.drop 0)

/-- Claim C8: when the agent listing invocation fails or returns no
lines, the membership test reports not-loaded for every fingerprint, and
the status query for a selected file whose ".pub" path exists and whose
fingerprint is computed successfully returns the not-added status string,
never an error. -/
theorem agent_unavailable_reports_not_loaded (st : AppState) (f fp : String)
    (pubExists : Bool) (w : AgentWorld)
    (hget : st.ssh_files[st.ssh_files_sel.getD 0]? = some f)
    (hpub : pubExists = true)
    (hfp : get_fingerprint w.fpExitOk w.fpStdout = Except.ok fp)
    (hempty : w.listExitOk = false ∨ w.listLines = []) :
    (∀ fp2 : String, is_key_in_agent w.listExitOk w.listLines fp2 = false)
  ∧ check_ssh_agent_status st pubExists w = "SSH key is not added to agent" := by
  have hnot : ∀ fp2 : String, is_key_in_agent w.listExitOk w.listLines fp2 = false := by
    intro fp2
    rcases hempty with h | h <;> simp [is_key_in_agent, h]
  refine ⟨hnot, ?_⟩
  simp [check_ssh_agent_status, hget, hpub, hfp, hnot fp]

theorem agent_unavailable_reports_not_loaded_w :
    (∀ fp2 : String,
        is_key_in_agent agentWorldNotLoaded.listExitOk agentWorldNotLoaded.listLines fp2
          = false)
  ∧ check_ssh_agent_status pairState true agentWorldNotLoaded
      = "SSH key is not added to agent" :=
  agent_unavailable_reports_not_loaded pairState "id_rsa - id_rsa.pub" "SHA256:abcdef" true
    agentWorldNotLoaded (by rfl) rfl (by rfl) (Or.inr rfl)

/-- Claim C9: when the fingerprint command exits successfully but its
output has fewer than two whitespace-separated fields, the fingerprint
function returns the empty string rather than an error, and the
substring-based membership test with the empty fingerprint then reports
the key as loaded exactly when the (successful) agent listing contains at
least one line. -/
theorem short_fingerprint_output_gives_empty (stdout : String) (lines : List String)
    (hshort : (rust_split_whitespace stdout).length < 2) :
    get_fingerprint true stdout = Except.ok ""
  ∧ is_key_in_agent true lines "" = !lines.isEmpty := by
  constructor
  · have hnone : (rust_split_whitespace stdout)[1]? = none := by
      rw [List.getElem?_eq_none]
      omega
    simp [get_fingerprint, hnone]
  · cases lines with
    | nil => rfl
    | cons l rest => simp [is_key_in_agent, strContains_empty_needle]

theorem short_fingerprint_output_gives_empty_w :
    get_fingerprint true "" = Except.ok ""
  ∧ is_key_in_agent true ["3072 SHA256:abcdef user (RSA)"] ""
      = !(["3072 SHA256:abcdef user (RSA)"] : List String).isEmpty :=
  short_fingerprint_output_gives_empty "" ["3072 SHA256:abcdef user (RSA)"] (by decide)

end Lazyssh
